import Mathlib

/-!
# Verification of the whisper-dictation core

Shallow embedding of the two core components of the repository:

* `HotkeyManager` (src/src/hotkey_manager.py): the global hotkey state
  machine — pressed-key tracking, activation/deactivation/cancel signals,
  and the per-event suppression hook.
* `AudioRecorder` (src/src/audio_recorder.py): the capture session —
  buffer handling, minimum/maximum duration policy, stop/cancel paths.

State is passed explicitly; the Python locks serialize the handlers, so
each handler is embedded as a pure state-transition function.  Durations
are modelled with ℚ: for the concrete constants involved
(SAMPLE_RATE = 16000, MIN_RECORDING_DURATION = 0.5) the Python float
comparison `total_samples / 16000 < 0.5` agrees with the exact rational
comparison, since 0.5 is exactly representable and rounding to nearest
is monotone.
-/

/-! ## Key model (pynput.keyboard.Key / KeyCode)

Only the keys relevant to the embedded code paths are carried as named
constructors; arbitrary character keys (pynput `KeyCode`) are `keyCode c`.
-/

inductive MKey where
  | alt | alt_l | alt_r | alt_gr
  | ctrl | ctrl_l | ctrl_r
  | shift | shift_l | shift_r
  | cmd | cmd_l | cmd_r
  | space
  | esc
  | keyCode (c : Nat)
deriving DecidableEq, Repr

/-- `_KEY_NORMALIZATIONS` applied by `HotkeyManager._normalize_key`
(src/src/hotkey_manager.py lines 18–28 and 139–153): left/right modifier
variants map to their canonical form; every other key is unchanged. -/
def normalizeKey : MKey → MKey
  | .alt_l => .alt
  | .alt_r => .alt
  | .alt_gr => .alt
  | .ctrl_l => .ctrl
  | .ctrl_r => .ctrl
  | .shift_l => .shift
  | .shift_r => .shift
  | .cmd_l => .cmd
  | .cmd_r => .cmd
  | k => k

/-- `DEFAULT_HOTKEY` from src/src/constants.py line 49: Option + Space. -/
def DEFAULT_HOTKEY : Finset MKey := {MKey.alt, MKey.space}

/-- The three edge-triggered signals the engine can emit
(callbacks `on_record_start`, `on_record_stop`, `on_cancel`). -/
inductive Signal where
  | activate | deactivate | cancel
deriving DecidableEq, Repr

/-- Engine state of `HotkeyManager`: the `_pressed_keys` set and the
`_is_recording` flag (src/src/hotkey_manager.py lines 65–66). -/
structure HotkeyState where
  pressed : Finset MKey
  isRecording : Bool
deriving DecidableEq

/-- Initial engine state (`start_listening`, lines 96–98: cleared
pressed set, not recording). -/
def initHotkeyState : HotkeyState := ⟨∅, false⟩

/-- `HotkeyManager._on_press` (src/src/hotkey_manager.py lines 187–227).
Returns the new state and the signal emitted, if any.
* repeats (normalized key already pressed) are ignored (lines 198–199);
* the key is added to the pressed set (line 201);
* if recording and the raw key is escape: recording stops, `cancel` is
  emitted (lines 205–208) — the pressed set is NOT cleared;
* else if not recording and the hotkey is a subset of the pressed set:
  recording starts, `activate` is emitted (lines 210–213). -/
def on_press (hotkey : Finset MKey) (s : HotkeyState) (k : MKey) :
    HotkeyState × Option Signal :=
  let n := normalizeKey k
  if n ∈ s.pressed then (s, none)
  else
    let pressed' := insert n s.pressed
    if s.isRecording = true ∧ k = MKey.esc then
      (⟨pressed', false⟩, some .cancel)
    else if s.isRecording = false ∧ hotkey ⊆ pressed' then
      (⟨pressed', true⟩, some .activate)
    else
      (⟨pressed', s.isRecording⟩, none)

/-- `HotkeyManager._on_release` (src/src/hotkey_manager.py lines 229–253).
If recording and the normalized key belongs to the hotkey, recording
stops and `deactivate` is emitted; the normalized key is discarded from
the pressed set in every case (line 246). -/
def on_release (hotkey : Finset MKey) (s : HotkeyState) (k : MKey) :
    HotkeyState × Option Signal :=
  let n := normalizeKey k
  if s.isRecording = true ∧ n ∈ hotkey then
    (⟨s.pressed.erase n, false⟩, some .deactivate)
  else
    (⟨s.pressed.erase n, s.isRecording⟩, none)

/-- A raw keyboard event delivered to the listener. -/
inductive KEvent where
  | press (k : MKey)
  | release (k : MKey)
deriving DecidableEq, Repr

/-- One listener step: dispatch an event to the matching handler. -/
def hstep (hotkey : Finset MKey) (s : HotkeyState) : KEvent → HotkeyState × Option Signal
  | .press k => on_press hotkey s k
  | .release k => on_release hotkey s k

/-- Final engine state after processing a sequence of events. -/
def runH (hotkey : Finset MKey) (s : HotkeyState) : List KEvent → HotkeyState
  | [] => s
  | e :: es => runH hotkey (hstep hotkey s e).1 es

/-- The list of signals emitted while processing a sequence of events. -/
def outs (hotkey : Finset MKey) (s : HotkeyState) : List KEvent → List Signal
  | [] => []
  | e :: es => (hstep hotkey s e).2.toList ++ outs hotkey (hstep hotkey s e).1 es

example :
    (on_press DEFAULT_HOTKEY (runH DEFAULT_HOTKEY initHotkeyState [.press .alt_l]) .space).2
      = some .activate := by decide

example :
    MKey.alt ∈ (runH DEFAULT_HOTKEY initHotkeyState
      [.press .alt, .press .space, .press .esc]).pressed ∧
    (runH DEFAULT_HOTKEY initHotkeyState
      [.press .alt, .press .space, .press .esc]).isRecording = false := by decide

/-! ## AudioRecorder (src/src/audio_recorder.py)

Audio constants from src/src/constants.py lines 36–41.  The recorder
state carries the frame buffer (`_buffer`, a list of byte chunks), the
recording flag (`_is_recording`), whether the pyaudio stream object is
present (`_stream is not None`), and whether the max-duration timer is
armed.  Writing the temporary WAV file may fail with an `OSError`
outside the program's control; that environment outcome is passed in as
the boolean `saveOk`.
-/

def SAMPLE_RATE : Nat := 16000

def MIN_RECORDING_DURATION : ℚ := 1/2

def MAX_RECORDING_DURATION : ℚ := 120

/-- A byte chunk delivered by the audio stream (`in_data`). -/
abbrev Chunk := List Nat

/-- State of `AudioRecorder` (src/src/audio_recorder.py lines 48–54). -/
structure RecState where
  buffer : List Chunk
  isRecording : Bool
  streamOpen : Bool
  timerActive : Bool
deriving DecidableEq, Repr

/-- `pyaudio` stream-continuation flag returned by the callback. -/
inductive PaFlag where
  | paContinue
deriving DecidableEq, Repr

/-- `AudioRecorder._audio_callback` (src/src/audio_recorder.py lines
193–213): appends `in_data` to the buffer whenever it is not `None`,
and returns `paContinue`.  The recording flag is never consulted. -/
def audio_callback (s : RecState) (in_data : Option Chunk) : RecState × PaFlag :=
  match in_data with
  | some d => ({ s with buffer := s.buffer ++ [d] }, .paContinue)
  | none => (s, .paContinue)

/-- `AudioRecorder._clear_buffer` (lines 99–106). -/
def clear_buffer (s : RecState) : RecState := { s with buffer := [] }

/-- `AudioRecorder._cancel_max_duration_timer` (lines 76–81). -/
def cancel_max_duration_timer (s : RecState) : RecState :=
  { s with timerActive := false }

/-- `AudioRecorder._stop_stream` (lines 215–227): if a stream object is
present it is stopped and closed and `_is_recording` is set to `False`
(in the `finally` block, so also when closing raises `OSError`); when no
stream is present nothing happens at all. -/
def stop_stream (s : RecState) : RecState :=
  if s.streamOpen = true then
    { s with streamOpen := false, isRecording := false }
  else s

/-- Total byte count of the buffer (`sum(len(chunk) for chunk in self._buffer)`,
line 238). -/
def totalBytes (s : RecState) : Nat := (s.buffer.map List.length).sum

/-- `AudioRecorder._calculate_duration` (lines 229–241): `0.0` for an
empty buffer, else `(total_bytes // 2) / SAMPLE_RATE` — two bytes per
16-bit sample, integer floor division. -/
def calculate_duration (s : RecState) : ℚ :=
  if s.buffer = [] then 0
  else ((totalBytes s / 2 : Nat) : ℚ) / (SAMPLE_RATE : ℚ)

/-- `AudioRecorder._save_to_temp_file` (lines 243–273): on success the
joined buffer is written to a fresh WAV file, the buffer is cleared and
the artifact (modelled by its PCM payload) is returned; on `OSError`
the buffer is also cleared and `None` is returned.  `saveOk` is the
environment outcome of the file write. -/
def save_to_temp_file (saveOk : Bool) (s : RecState) : RecState × Option Chunk :=
  if saveOk = true then
    ({ s with buffer := [] }, some s.buffer.flatten)
  else
    ({ s with buffer := [] }, none)

/-- `AudioRecorder.stop_recording` (lines 145–178): cancel the timer;
if not recording, return `None`; otherwise stop the stream, compute the
duration, discard and return `None` when it is strictly below
`MIN_RECORDING_DURATION`, else save to a temporary file. -/
def stop_recording (saveOk : Bool) (s : RecState) : RecState × Option Chunk :=
  let s1 := cancel_max_duration_timer s
  if s1.isRecording = false then (s1, none)
  else
    let s2 := stop_stream s1
    if calculate_duration s2 < MIN_RECORDING_DURATION then
      (clear_buffer s2, none)
    else
      save_to_temp_file saveOk s2

/-- `AudioRecorder.cancel_recording` (lines 180–191): cancel the timer,
stop the stream, clear the buffer; never returns anything. -/
def cancel_recording (s : RecState) : RecState :=
  clear_buffer (stop_stream (cancel_max_duration_timer s))

/-- `App._on_max_duration` (src/src/app.py lines 271–309), restricted to
its interaction with the recorder: it stops the recording by calling the
very same `stop_recording` used by the manual-path handler (line 279)
and hands the resulting artifact (or its absence) to the transcription
consumer. -/
def app_on_max_duration (saveOk : Bool) (s : RecState) : RecState × Option Chunk :=
  stop_recording saveOk s

/-- `App._on_record_stop` (src/src/app.py lines 232–262), restricted to
its interaction with the recorder: the manual stop path, calling
`stop_recording` (line 236). -/
def app_on_record_stop (saveOk : Bool) (s : RecState) : RecState × Option Chunk :=
  stop_recording saveOk s

/-- `AudioRecorder._on_max_duration_reached` (src/src/audio_recorder.py
lines 83–97): when the watchdog timer fires, return immediately if no
longer recording, else invoke the `on_max_duration` callback — wired to
`App._on_max_duration` in src/src/app.py. -/
def on_max_duration_reached (saveOk : Bool) (s : RecState) : RecState × Option Chunk :=
  if s.isRecording = false then (s, none)
  else app_on_max_duration saveOk s

/-- Duration of a buffer holding a single chunk of `n` bytes. -/
theorem calculate_duration_single (n : Nat) (b c d : Bool) :
    calculate_duration ⟨[List.replicate n 0], b, c, d⟩
      = ((n / 2 : Nat) : ℚ) / (SAMPLE_RATE : ℚ) := by
  simp [calculate_duration, totalBytes]

/-- A concrete half-second recording: one chunk of 16000 bytes
(8000 samples at 16 kHz), recording in progress. -/
def halfSecondState : RecState := ⟨[List.replicate 16000 0], true, true, true⟩

theorem halfSecond_duration : calculate_duration halfSecondState = 1/2 := by
  show calculate_duration ⟨[List.replicate 16000 0], true, true, true⟩ = 1/2
  rw [calculate_duration_single]
  norm_num [SAMPLE_RATE]

/-! ## Suppression hook (src/src/hotkey_manager.py lines 155–185) -/

/-- `_SPACE_KEYCODE` (src/src/hotkey_manager.py line 11): the macOS raw
keycode for the space bar. -/
def SPACE_KEYCODE : Nat := 49

/-- macOS raw keycodes that the global listener delivers for the keys of
the default combination.  The source itself names only the space keycode
(49); the option key arrives as raw code 58 (left) / 61 (right), and in
particular not as 49, since 49 is the space bar's code. -/
def macKeycode : MKey → Option Nat
  | .space => some 49
  | .alt => some 58
  | .alt_l => some 58
  | .alt_r => some 61
  | .esc => some 53
  | _ => none

/-- `HotkeyManager._intercept_event` (src/src/hotkey_manager.py lines
155–185), as a function of the recording flag, the availability of the
Quartz helper (the `try/except` around the import, lines 175–183) and
the raw keycode of the event.  `none` means the event is suppressed;
`some c` means it is passed through.  When not recording every event
passes; when recording, exactly the events whose keycode is
`SPACE_KEYCODE` are suppressed (provided Quartz is available). -/
def intercept_event (isRec : Bool) (quartzOk : Bool) (keycode : Nat) : Option Nat :=
  if isRec = false then some keycode
  else if quartzOk = true ∧ keycode = SPACE_KEYCODE then none
  else some keycode

/-! ## Engine step lemmas -/

/-- `_on_press` always leaves the pressed set equal to the previous set
with the normalized key inserted (a repeat inserts a key already
present, which changes nothing). -/
theorem on_press_pressed (hotkey : Finset MKey) (s : HotkeyState) (k : MKey) :
    (on_press hotkey s k).1.pressed = insert (normalizeKey k) s.pressed := by
  by_cases h : normalizeKey k ∈ s.pressed
  · simp [on_press, h, Finset.insert_eq_self.mpr h]
  · simp only [on_press, h, if_false, if_neg]
    split_ifs
    · rfl
    · rfl
    · rfl

/-- `_on_release` always erases the normalized key, whatever the state. -/
theorem on_release_pressed (hotkey : Finset MKey) (s : HotkeyState) (k : MKey) :
    (on_release hotkey s k).1.pressed = s.pressed.erase (normalizeKey k) := by
  simp only [on_release]
  split_ifs
  · rfl
  · rfl

/-- From an idle state a step either emits `activate`, or emits nothing
and stays idle; `cancel` and `deactivate` both require `isRecording`. -/
theorem hstep_idle (hotkey : Finset MKey) (s : HotkeyState) (e : KEvent)
    (h : s.isRecording = false) :
    (hstep hotkey s e).2 = some .activate ∨
      ((hstep hotkey s e).2 = none ∧ (hstep hotkey s e).1.isRecording = false) := by
  cases e with
  | press k =>
    simp only [hstep, on_press]
    split_ifs with h1 h2 h3
    · exact Or.inr ⟨rfl, h⟩
    · exact absurd h2.1 (by simp [h])
    · exact Or.inl rfl
    · exact Or.inr ⟨rfl, h⟩
  | release k =>
    simp only [hstep, on_release]
    split_ifs with h1
    · exact absurd h1.1 (by simp [h])
    · exact Or.inr ⟨rfl, h⟩

/-- A step that emits `cancel` leaves the engine idle. -/
theorem hstep_cancel_idle (hotkey : Finset MKey) (s : HotkeyState) (e : KEvent)
    (h : (hstep hotkey s e).2 = some .cancel) :
    (hstep hotkey s e).1.isRecording = false := by
  cases e with
  | press k =>
    simp only [hstep, on_press] at h ⊢
    split_ifs at h ⊢ <;> simp_all
  | release k =>
    simp only [hstep, on_release] at h ⊢
    split_ifs at h ⊢
    simp_all

/-- While the engine stays idle (no `activate` emitted), no `deactivate`
can be emitted either. -/
theorem no_deactivate_while_idle (hotkey : Finset MKey) :
    ∀ (es : List KEvent) (s : HotkeyState), s.isRecording = false →
      Signal.activate ∉ outs hotkey s es → Signal.deactivate ∉ outs hotkey s es := by
  intro es
  induction es with
  | nil => intro s _ _; simp [outs]
  | cons e es ih =>
    intro s hidle hna
    rcases hstep_idle hotkey s e hidle with hact | ⟨hnone, hidle'⟩
    · exact absurd (by simp [outs, hact]) hna
    · have hna' : Signal.activate ∉ outs hotkey (hstep hotkey s e).1 es := by
        simpa [outs, hnone] using hna
      simpa [outs, hnone] using ih (hstep hotkey s e).1 hidle' hna'

/-! ## Spec-side held-key tracker (for the PressedSet invariant) -/

/-- Defined from the spec's words ("PressedSet after processing equals
the set of keys pressed-but-not-yet-released, with repeats ignored"):
fold the event list, inserting the normalized key on press and erasing
it on release. -/
def heldKeys (acc : Finset MKey) : List KEvent → Finset MKey
  | [] => acc
  | .press k :: es => heldKeys (insert (normalizeKey k) acc) es
  | .release k :: es => heldKeys (acc.erase (normalizeKey k)) es

/-! ## Concrete engine states used by witnesses and counterexamples -/

/-- Engine state after press alt, press space from the initial state:
recording (Armed), chord held. -/
def armedState : HotkeyState :=
  runH DEFAULT_HOTKEY initHotkeyState [.press .alt, .press .space]

/-- Engine state after press alt, press space, press esc: the cancel
fired, but the chord (and esc) are still physically held. -/
def postCancelState : HotkeyState :=
  runH DEFAULT_HOTKEY initHotkeyState [.press .alt, .press .space, .press .esc]

example : armedState.isRecording = true := by decide
example : postCancelState.isRecording = false := by decide

/-! ## Claim C1 — Activate firing condition -/

/-- C1 counterexample.  The claim says `Activate` fires only when
PressedSet *becomes* a superset of the combination on the press.  In the
code, after activating with alt+space and cancelling with esc (which
does not clear the pressed set), the engine is idle while PressedSet
`{alt, space, esc}` is already a superset of `{alt, space}`; pressing
any further key — here the character key `a` (keyCode 97) — fires
`Activate` again although the set did not become a superset at that
press (it already was one). -/
theorem activate_fires_without_becoming_superset :
    postCancelState.isRecording = false ∧
    DEFAULT_HOTKEY ⊆ postCancelState.pressed ∧
    (on_press DEFAULT_HOTKEY postCancelState (.keyCode 97)).2 = some .activate := by
  decide

/-- C1 (amended): on a press event, `Activate` fires iff the normalized
key was not already held, the engine was idle, and the pressed set
*after adding the key* is a superset of the configured combination
(whether or not it already was one before); every such firing is an
Idle-to-Armed transition, and no press fires `Activate` while already
recording. -/
theorem on_press_activate_iff (hotkey : Finset MKey) (s : HotkeyState) (k : MKey) :
    ((on_press hotkey s k).2 = some .activate ↔
      normalizeKey k ∉ s.pressed ∧ s.isRecording = false ∧
        hotkey ⊆ insert (normalizeKey k) s.pressed) ∧
    ((on_press hotkey s k).2 = some .activate →
      (on_press hotkey s k).1.isRecording = true) ∧
    (s.isRecording = true → (on_press hotkey s k).2 ≠ some .activate) := by
  simp only [on_press]
  split_ifs with h1 h2 h3
  · simp [h1]
  · simp [h2.1]
  · simp [h1, h3.1, h3.2]
  · refine ⟨?_, ?_, ?_⟩
    · simp only [reduceCtorEq, false_iff, not_and]
      intro _ hrec hsub
      exact h3 ⟨hrec, hsub⟩
    · intro hcon
      simp at hcon
    · intro _ hcon
      simp at hcon

/-- C1 witness: with the chord `{alt, space}`, from the idle state where
only alt is held, pressing space fires `Activate`. -/
theorem on_press_activate_iff_witness :
    (on_press DEFAULT_HOTKEY ⟨{MKey.alt}, false⟩ MKey.space).2 = some .activate :=
  (on_press_activate_iff DEFAULT_HOTKEY ⟨{MKey.alt}, false⟩ MKey.space).1.mpr (by decide)

/-! ## Claim C3 — Cancel preempts Deactivate -/

/-- C3: after a step that emits `Cancel`, no later event can emit
`Deactivate` until a new `Activate` has occurred: on any continuation of
the trace whose outputs contain no `activate`, the outputs contain no
`deactivate` either — in particular releasing the combination keys after
an esc-cancel emits nothing. -/
theorem cancel_preempts_deactivate (hotkey : Finset MKey) (s : HotkeyState)
    (e : KEvent) (es : List KEvent)
    (hc : (hstep hotkey s e).2 = some .cancel)
    (hna : Signal.activate ∉ outs hotkey (hstep hotkey s e).1 es) :
    Signal.deactivate ∉ outs hotkey (hstep hotkey s e).1 es :=
  no_deactivate_while_idle hotkey es (hstep hotkey s e).1
    (hstep_cancel_idle hotkey s e hc) hna

/-- C3 witness: press alt, press space (activate), press esc (cancel),
then release space and release alt: no `deactivate` is emitted. -/
theorem cancel_preempts_deactivate_witness :
    Signal.deactivate ∉
      outs DEFAULT_HOTKEY (hstep DEFAULT_HOTKEY armedState (.press .esc)).1
        [.release .space, .release .alt] :=
  cancel_preempts_deactivate DEFAULT_HOTKEY armedState (.press .esc)
    [.release .space, .release .alt] (by decide) (by decide)

/-! ## Claim C6 — PressedSet tracks held keys -/

/-- C6: for every sequence of press/release events and every starting
state, the engine's pressed set after processing equals the spec-side
fold `heldKeys`: normalized keys pressed but not yet released, with
repeats ignored (inserting an already-present key changes nothing) and
releases removing the key regardless of the recording state. -/
theorem pressed_set_tracks_held_keys (hotkey : Finset MKey) :
    ∀ (es : List KEvent) (s : HotkeyState),
      (runH hotkey s es).pressed = heldKeys s.pressed es := by
  intro es
  induction es with
  | nil => intro s; rfl
  | cons e es ih =>
    intro s
    cases e with
    | press k =>
      have hp := on_press_pressed hotkey s k
      calc (runH hotkey s (.press k :: es)).pressed
          = (runH hotkey (on_press hotkey s k).1 es).pressed := rfl
        _ = heldKeys (on_press hotkey s k).1.pressed es := ih _
        _ = heldKeys (insert (normalizeKey k) s.pressed) es := by rw [hp]
        _ = heldKeys s.pressed (.press k :: es) := rfl
    | release k =>
      have hp := on_release_pressed hotkey s k
      calc (runH hotkey s (.release k :: es)).pressed
          = (runH hotkey (on_release hotkey s k).1 es).pressed := rfl
        _ = heldKeys (on_release hotkey s k).1.pressed es := ih _
        _ = heldKeys (s.pressed.erase (normalizeKey k)) es := by rw [hp]
        _ = heldKeys s.pressed (.release k :: es) := rfl

/-! ## Claim C7 — cancel transition and PressedSet -/

/-- C7 counterexample.  The claim says PressedSet is reset to empty on
the cancel transition.  In the code, pressing esc while Armed emits
`Cancel` and moves to idle, but the pressed set is NOT cleared: alt is
still in it (and so are space and esc). -/
theorem cancel_does_not_clear_pressed :
    (on_press DEFAULT_HOTKEY armedState .esc).2 = some .cancel ∧
    (on_press DEFAULT_HOTKEY armedState .esc).1.isRecording = false ∧
    MKey.alt ∈ (on_press DEFAULT_HOTKEY armedState .esc).1.pressed ∧
    MKey.space ∈ (on_press DEFAULT_HOTKEY armedState .esc).1.pressed := by
  decide

/-- C7 (amended): on the cancel transition the engine does go idle, but
PressedSet is not reset to empty — it is the previous pressed set with
the cancel key inserted, so the held keys survive the cancelled cycle
(the set keeps tracking physically held keys, cf. the PressedSet
invariant). -/
theorem on_press_cancel_keeps_pressed (hotkey : Finset MKey) (s : HotkeyState)
    (k : MKey) (h : (on_press hotkey s k).2 = some .cancel) :
    (on_press hotkey s k).1.isRecording = false ∧
    (on_press hotkey s k).1.pressed = insert (normalizeKey k) s.pressed := by
  refine ⟨?_, on_press_pressed hotkey s k⟩
  simp only [on_press] at h ⊢
  split_ifs at h ⊢ <;> simp_all

/-- C7 witness: cancelling from the armed state via esc. -/
theorem on_press_cancel_keeps_pressed_witness :
    (on_press DEFAULT_HOTKEY armedState MKey.esc).1.isRecording = false ∧
    (on_press DEFAULT_HOTKEY armedState MKey.esc).1.pressed
      = insert (normalizeKey MKey.esc) armedState.pressed :=
  on_press_cancel_keeps_pressed DEFAULT_HOTKEY armedState MKey.esc (by decide)

/-! ## Claim C9 — suppression hook -/

/-- C9 counterexample.  The claim says that while Armed the hook
swallows exactly the events of the combination's keys.  The option key
belongs to the default combination `{alt, space}` and its raw event
arrives with keycode 58, but the hook passes it through unchanged while
recording — only keycode 49 (space) is ever suppressed. -/
theorem intercept_passes_alt_while_recording :
    MKey.alt ∈ DEFAULT_HOTKEY ∧
    macKeycode MKey.alt = some 58 ∧
    intercept_event true true 58 = some 58 := by
  decide

/-- C9 (amended): the hook suppresses an event iff the engine is
recording, the Quartz helper is available, and the event's raw keycode
is the space keycode (49) — i.e. exactly the space events among the
combination's keys, never the modifier, and nothing while idle. -/
theorem intercept_event_none_iff (isRec quartzOk : Bool) (keycode : Nat) :
    intercept_event isRec quartzOk keycode = none ↔
      isRec = true ∧ quartzOk = true ∧ keycode = SPACE_KEYCODE := by
  simp only [intercept_event]
  split_ifs with h1 h2
  · simp [h1]
  · simp only [Bool.not_eq_false] at h1
    simp [h1, h2.1, h2.2]
  · simp only [reduceCtorEq, false_iff, not_and]
    intro _ hq hc
    exact h2 ⟨hq, hc⟩

/-- C9 witness: while recording with Quartz available, a space event
(keycode 49) is suppressed. -/
theorem intercept_event_none_iff_witness :
    intercept_event true true 49 = none :=
  (intercept_event_none_iff true true 49).mpr ⟨rfl, rfl, rfl⟩

/-! ## Claim C2 — frame callback vs. session state -/

/-- C2 counterexample.  The claim says a frame delivered while the
session is not Recording leaves the buffer unchanged.  The callback
never consults the recording flag: a frame delivered to an inactive
session is appended all the same. -/
theorem audio_callback_appends_when_inactive :
    (⟨[], false, false, false⟩ : RecState).isRecording = false ∧
    (audio_callback ⟨[], false, false, false⟩ (some [0, 1])).1.buffer = [[0, 1]] := by
  decide

/-- C2 (amended): the callback appends every non-`None` frame to the
buffer regardless of the session state, and leaves the state untouched
for a `None` frame; non-delivery after a stop is ensured by closing the
stream, not by a state check in the callback. -/
theorem audio_callback_appends_unconditionally (s : RecState) (d : Chunk) :
    (audio_callback s (some d)).1.buffer = s.buffer ++ [d] ∧
    (audio_callback s (some d)).1.isRecording = s.isRecording ∧
    (audio_callback s none).1 = s :=
  ⟨rfl, rfl, rfl⟩

/-! ## Recorder helper lemmas -/

/-- With the recording flag set, `stop_recording` reduces to the
duration test on the stream-stopped, timer-cancelled state. -/
theorem stop_recording_eq (saveOk : Bool) (s : RecState)
    (hrec : s.isRecording = true) :
    stop_recording saveOk s =
      if calculate_duration s < MIN_RECORDING_DURATION then
        (clear_buffer (stop_stream (cancel_max_duration_timer s)), none)
      else
        save_to_temp_file saveOk (stop_stream (cancel_max_duration_timer s)) := by
  have hbuf : (stop_stream (cancel_max_duration_timer s)).buffer = s.buffer := by
    simp only [stop_stream, cancel_max_duration_timer]
    split_ifs
    · rfl
    · rfl
  have hdur : calculate_duration (stop_stream (cancel_max_duration_timer s))
      = calculate_duration s := by
    simp [calculate_duration, totalBytes, hbuf]
  simp only [stop_recording, hdur]
  rw [if_neg (by simp [cancel_max_duration_timer, hrec])]

/-- Stopping a recording session leaves the canonical inactive state:
empty buffer, not recording, stream closed, timer disarmed — whichever
branch (too short, save succeeded, save failed) was taken. -/
theorem stop_recording_post (saveOk : Bool) (s : RecState)
    (hrec : s.isRecording = true) (hst : s.streamOpen = true) :
    (stop_recording saveOk s).1 = ⟨[], false, false, false⟩ := by
  obtain ⟨b, r, st, t⟩ := s
  simp only at hrec hst
  subst hrec
  subst hst
  rw [stop_recording_eq saveOk _ rfl]
  simp only [stop_stream, cancel_max_duration_timer, clear_buffer, save_to_temp_file]
  split_ifs
  · rfl
  · rfl
  · rfl

/-- Cancelling with the stream open also leaves the canonical inactive
state. -/
theorem cancel_recording_post (s : RecState) (hst : s.streamOpen = true) :
    cancel_recording s = ⟨[], false, false, false⟩ := by
  obtain ⟨b, r, st, t⟩ := s
  simp only at hst
  subst hst
  simp [cancel_recording, clear_buffer, stop_stream, cancel_max_duration_timer]

/-- Both stop operations fix the canonical inactive state and return no
artifact from it. -/
theorem ops_fix_inactive (saveOk : Bool) :
    stop_recording saveOk ⟨[], false, false, false⟩ = (⟨[], false, false, false⟩, none) ∧
    cancel_recording ⟨[], false, false, false⟩ = ⟨[], false, false, false⟩ := by
  cases saveOk
  · decide
  · decide

/-- Reachable-state invariant of the recorder: while recording the
stream object is present (`start_recording` opens it before setting the
flag, under the lock); when not recording the stream is closed and the
buffer is empty (every stop/cancel path clears it, and frames only
arrive while the stream is open). -/
abbrev normalS (s : RecState) : Prop :=
  (s.isRecording = true → s.streamOpen = true) ∧
  (s.isRecording = false → s.streamOpen = false ∧ s.buffer = [])

/-! ## Claim C4 — watchdog stop equals manual stop -/

/-- C4: when the watchdog fires on a session that is still recording,
the recorder-side handler's callback chain performs exactly
`stop_recording` — the same function, with the same resulting state and
artifact (or absence of one), as the manual stop handler invokes. -/
theorem watchdog_stop_equals_manual_stop (saveOk : Bool) (s : RecState)
    (h : s.isRecording = true) :
    on_max_duration_reached saveOk s = stop_recording saveOk s ∧
    on_max_duration_reached saveOk s = app_on_record_stop saveOk s := by
  constructor
  · simp [on_max_duration_reached, app_on_max_duration, h]
  · simp [on_max_duration_reached, app_on_max_duration, app_on_record_stop, h]

/-- C4 witness: the watchdog stop on a concrete half-second recording
session coincides with the manual stop. -/
theorem watchdog_stop_equals_manual_stop_witness :
    on_max_duration_reached true halfSecondState = stop_recording true halfSecondState ∧
    on_max_duration_reached true halfSecondState = app_on_record_stop true halfSecondState :=
  watchdog_stop_equals_manual_stop true halfSecondState rfl

/-! ## Claim C5 — duration policy with strict threshold -/

/-- C5: for a recording session, `stop_recording` computes the duration
as the total sample count (total bytes, floor-divided by two) divided by
the sample rate, and compares it strictly against the minimum threshold:
strictly below, the buffer is discarded and nothing is returned; at or
above (in particular exactly at the threshold) the artifact is produced,
provided the file write succeeds (the failing write is claim C10's
concern). -/
theorem stop_recording_duration_policy (saveOk : Bool) (s : RecState)
    (hrec : s.isRecording = true) :
    calculate_duration s = ((totalBytes s / 2 : Nat) : ℚ) / (SAMPLE_RATE : ℚ) ∧
    (calculate_duration s < MIN_RECORDING_DURATION →
      (stop_recording saveOk s).2 = none ∧ (stop_recording saveOk s).1.buffer = []) ∧
    (MIN_RECORDING_DURATION ≤ calculate_duration s → saveOk = true →
      (stop_recording saveOk s).2 = some s.buffer.flatten) := by
  have hbuf : (stop_stream (cancel_max_duration_timer s)).buffer = s.buffer := by
    simp only [stop_stream, cancel_max_duration_timer]
    split_ifs
    · rfl
    · rfl
  refine ⟨?_, ?_, ?_⟩
  · by_cases hb : s.buffer = []
    · simp [calculate_duration, hb, totalBytes]
    · simp [calculate_duration, hb]
  · intro hlt
    rw [stop_recording_eq saveOk s hrec, if_pos hlt]
    exact ⟨rfl, rfl⟩
  · intro hge hsave
    rw [stop_recording_eq saveOk s hrec, if_neg (not_lt.mpr hge), hsave]
    simp [save_to_temp_file, hbuf]

/-- C5 witness: a session of exactly 8000 samples (16000 bytes) at
16 kHz lasts exactly the 0.5 s minimum and yields the artifact. -/
theorem stop_recording_duration_policy_witness :
    (stop_recording true halfSecondState).2 = some halfSecondState.buffer.flatten :=
  (stop_recording_duration_policy true halfSecondState rfl).2.2
    (by simp [MIN_RECORDING_DURATION, halfSecond_duration]) rfl

/-- A session one sample short of the threshold (15998 bytes, 7999
samples, 0.4999 s) yields nothing. -/
example :
    (stop_recording true ⟨[List.replicate 15998 0], true, true, true⟩).2 = none := by
  rw [stop_recording_eq true _ rfl,
    if_pos (by rw [calculate_duration_single]; norm_num [SAMPLE_RATE, MIN_RECORDING_DURATION])]

/-! ## Claim C8 — idempotence of stop and cancel -/

/-- C8: on any state satisfying the reachable-state invariant, calling
`stop_recording` or `cancel_recording` while inactive returns no
artifact and changes nothing beyond disarming the timer; and the second
of any two consecutive stop/cancel calls returns no artifact and leaves
the state exactly as the first call left it (no error is possible: both
embeddings are total, mirroring the Python code, whose only effects on
this path are a warning log and `return None`). -/
theorem stop_cancel_idempotent (saveOk saveOk2 : Bool) (s : RecState)
    (h : normalS s) :
    (s.isRecording = false →
      stop_recording saveOk s = (cancel_max_duration_timer s, none) ∧
      cancel_recording s = cancel_max_duration_timer s) ∧
    stop_recording saveOk2 (stop_recording saveOk s).1 = ((stop_recording saveOk s).1, none) ∧
    cancel_recording (stop_recording saveOk s).1 = (stop_recording saveOk s).1 ∧
    stop_recording saveOk2 (cancel_recording s) = (cancel_recording s, none) ∧
    cancel_recording (cancel_recording s) = cancel_recording s := by
  by_cases hrec : s.isRecording = true
  · have hst := h.1 hrec
    have hpost := stop_recording_post saveOk s hrec hst
    have hcan := cancel_recording_post s hst
    refine ⟨?_, ?_, ?_, ?_, ?_⟩
    · intro hcon
      rw [hrec] at hcon
      simp at hcon
    · rw [hpost]
      exact (ops_fix_inactive saveOk2).1
    · rw [hpost]
      exact (ops_fix_inactive saveOk2).2
    · rw [hcan]
      exact (ops_fix_inactive saveOk2).1
    · rw [hcan]
      exact (ops_fix_inactive saveOk2).2
  · have hrec' : s.isRecording = false := by
      simpa using hrec
    obtain ⟨hstream, hbuffer⟩ := h.2 hrec'
    obtain ⟨b, r, st, t⟩ := s
    simp only at hrec' hstream hbuffer
    subst hrec'
    subst hstream
    subst hbuffer
    cases t
    · cases saveOk
      · cases saveOk2
        · decide
        · decide
      · cases saveOk2
        · decide
        · decide
    · cases saveOk
      · cases saveOk2
        · decide
        · decide
      · cases saveOk2
        · decide
        · decide

/-- C8 witness: double stop and double cancel on a concrete recording
session. -/
theorem stop_cancel_idempotent_witness :
    (halfSecondState.isRecording = false →
      stop_recording true halfSecondState = (cancel_max_duration_timer halfSecondState, none) ∧
      cancel_recording halfSecondState = cancel_max_duration_timer halfSecondState) ∧
    stop_recording false (stop_recording true halfSecondState).1
      = ((stop_recording true halfSecondState).1, none) ∧
    cancel_recording (stop_recording true halfSecondState).1
      = (stop_recording true halfSecondState).1 ∧
    stop_recording false (cancel_recording halfSecondState)
      = (cancel_recording halfSecondState, none) ∧
    cancel_recording (cancel_recording halfSecondState)
      = cancel_recording halfSecondState :=
  stop_cancel_idempotent true false halfSecondState (by decide)

/-! ## Claim C10 — save failure is indistinguishable from too-short -/

/-- C10: even when the recorded duration is at or above the minimum
threshold, `stop_recording` returns `none` if writing the temporary WAV
file fails, and the buffer is cleared all the same — the very return
value a too-short recording produces, while a successful write on the
same state does return an artifact. -/
theorem stop_recording_save_failure (s : RecState)
    (hrec : s.isRecording = true)
    (hd : MIN_RECORDING_DURATION ≤ calculate_duration s) :
    (stop_recording false s).2 = none ∧
    (stop_recording false s).1.buffer = [] ∧
    (stop_recording true s).2 ≠ none := by
  have heq := stop_recording_eq false s hrec
  have heq2 := stop_recording_eq true s hrec
  rw [if_neg (not_lt.mpr hd)] at heq heq2
  refine ⟨?_, ?_, ?_⟩
  · rw [heq]
    simp [save_to_temp_file]
  · rw [heq]
    simp [save_to_temp_file]
  · rw [heq2]
    simp [save_to_temp_file]

/-- C10 witness: the half-second session, written with a failing save. -/
theorem stop_recording_save_failure_witness :
    (stop_recording false halfSecondState).2 = none ∧
    (stop_recording false halfSecondState).1.buffer = [] ∧
    (stop_recording true halfSecondState).2 ≠ none :=
  stop_recording_save_failure halfSecondState rfl
    (by simp [MIN_RECORDING_DURATION, halfSecond_duration])
